import Mathlib

/- Shallow embedding of the return/risk analytics layer of the
stock-sector-dashboard repository (src/dashboard.py and src/engine.py).

Modelling conventions:
* floating-point arithmetic is modelled exactly: real numbers where the code
  needs transcendental operations (powers, square roots), rationals elsewhere;
* a NaN / missing cell is modelled with Option (none = NaN);
* a price column is a list of (date, price) pairs; dates are calendar-day
  numbers (an integer), so date subtraction models
  pandas (col.index[-1] - col.index[0]).days. -/

namespace StockDash

/- ### dashboard.py, calc_summary (lines 137-163)

Per-ticker the source computes, from col = filtered_df[ticker].dropna():
  daily_ret = col.pct_change().dropna()
  days  = (col.index[-1] - col.index[0]).days
  yrs   = max(days / 365.25, 0.1)
  ret   = ((col.iloc[-1] / col.iloc[0]) - 1) * 100
  cagr  = (((col.iloc[-1] / col.iloc[0]) ** (1 / yrs)) - 1) * 100
  vol   = daily_ret.std() * np.sqrt(252) * 100 if len(daily_ret) > 1 else np.nan
  sharpe = (cagr / vol) if (not np.isnan(vol) and vol > 0) else np.nan
Tickers whose column has fewer than 2 valid points are skipped (continue),
and the function ends with
  return pd.DataFrame(rows).sort_values("Return %", ascending=False)
(line 163).  When no ticker survives the skip, rows is empty, the empty frame
has no "Return %" column, and sort_values raises KeyError. -/

/-- Model of pandas Series.dropna on a date-indexed column: keep the cells
that hold a value. -/
def dropna (c : List (ℤ × Option ℝ)) : List (ℤ × ℝ) :=
  c.filterMap fun q => q.2.map fun v => (q.1, v)

/-- Calendar days spanned by a column: (col.index[-1] - col.index[0]).days.
The source only evaluates this on columns of length at least 2. -/
def daysOf (col : List (ℤ × ℝ)) : ℤ :=
  (col.getLastD (0, 0)).1 - (col.headD (0, 0)).1

/-- col.iloc[0], the first valid price. -/
def firstPrice (col : List (ℤ × ℝ)) : ℝ :=
  (col.headD (0, 0)).2

/-- col.iloc[-1], the last valid price. -/
def lastPrice (col : List (ℤ × ℝ)) : ℝ :=
  (col.getLastD (0, 0)).2

noncomputable section

/-- yrs = max(days / 365.25, 0.1). -/
def yrsOf (col : List (ℤ × ℝ)) : ℝ :=
  max ((daysOf col : ℝ) / 365.25) 0.1

/-- ret = ((col.iloc[-1] / col.iloc[0]) - 1) * 100. -/
def retOf (col : List (ℤ × ℝ)) : ℝ :=
  (lastPrice col / firstPrice col - 1) * 100

/-- cagr = (((col.iloc[-1] / col.iloc[0]) ** (1 / yrs)) - 1) * 100, with ** the
real power. -/
def cagrOf (col : List (ℤ × ℝ)) : ℝ :=
  ((lastPrice col / firstPrice col) ^ ((1 : ℝ) / yrsOf col) - 1) * 100

/-- daily_ret = col.pct_change().dropna(): day-over-day ratios minus 1; the
leading NaN produced by pct_change is dropped, which the zip with the tail
performs directly. -/
def dailyRet (col : List (ℤ × ℝ)) : List ℝ :=
  (col.zip col.tail).map fun q => q.2.2 / q.1.2 - 1

/-- Arithmetic mean of a list (pandas Series.mean). -/
def meanR (l : List ℝ) : ℝ :=
  l.sum / l.length

/-- Sample standard deviation (pandas Series.std, ddof = 1). -/
def stdR (l : List ℝ) : ℝ :=
  Real.sqrt ((l.map fun x => (x - meanR l) ^ 2).sum / ((l.length : ℝ) - 1))

/-- vol = daily_ret.std() * np.sqrt(252) * 100 if len(daily_ret) > 1 else NaN. -/
def volOf (col : List (ℤ × ℝ)) : Option ℝ :=
  if 1 < (dailyRet col).length then
    some (stdR (dailyRet col) * Real.sqrt 252 * 100)
  else none

/-- sharpe = (cagr / vol) if (not np.isnan(vol) and vol > 0) else NaN.
none models NaN on either side. -/
def sharpeLike (cagr : ℝ) (vol : Option ℝ) : Option ℝ :=
  match vol with
  | some v => if 0 < v then some (cagr / v) else none
  | none => none

/-- One row of the summary table built by calc_summary. -/
structure SummaryRow where
  ticker : String
  retPct : ℝ
  cagrPct : ℝ
  volPct : Option ℝ
  sharpe : Option ℝ
  latest : ℝ
  yearsUsed : ℝ

/-- The row calc_summary appends for one ticker (source lines 154-162). -/
def summaryRow (t : String) (col : List (ℤ × ℝ)) : SummaryRow :=
  { ticker := t
    retPct := retOf col
    cagrPct := cagrOf col
    volPct := volOf col
    sharpe := sharpeLike (cagrOf col) (volOf col)
    latest := lastPrice col
    yearsUsed := yrsOf col }

/-- dashboard.py calc_summary: one row per ticker whose dropna-ed column has
at least 2 valid points (shorter columns are skipped with continue), sorted by
Return % descending by the trailing sort_values.  With no surviving ticker the
empty frame lacks the "Return %" column and sort_values raises KeyError; the
raise is modelled as none.  The source's default unstable quicksort leaves the
relative order of Return %-ties unspecified; merge sort realizes one
admissible order (the theorems below only rely on one-row frames, where every
sort agrees). -/
def calc_summary (table : List (String × List (ℤ × Option ℝ))) : Option (List SummaryRow) :=
  let rows := table.filterMap fun tc =>
    if 2 ≤ (dropna tc.2).length then some (summaryRow tc.1 (dropna tc.2)) else none
  if rows.isEmpty then none
  else some (rows.mergeSort fun a b => decide (b.retPct ≤ a.retPct))

/- ### engine.py, calculate_cagr (lines 39-45)

def calculate_cagr(data):
    if data.empty: return 0
    days = (data.index[-1] - data.index[0]).days
    if days < 30: return 0
    years = days / 365.25
    return ((data.iloc[-1] / data.iloc[0]) ** (1 / years) - 1) * 100

Modelled for a single-instrument frame (one dated column); the multi-column
frame applies the same scalar computation columnwise. -/

/-- engine.py calculate_cagr on one dated price column. -/
def calculate_cagr (data : List (ℤ × ℝ)) : ℝ :=
  if data.isEmpty then 0
  else if daysOf data < 30 then 0
  else ((lastPrice data / firstPrice data) ^ ((1 : ℝ) / ((daysOf data : ℝ) / 365.25)) - 1) * 100

end

/-- Claim C1: for every price column with at least 2 non-null points,
calc_summary produces exactly one row whose CAGR equals
((last/first) ** (1 / elapsed_years) - 1) * 100 with
elapsed_years = max(elapsed_calendar_days / 365.25, 0.1); and on any window of
at most 36 calendar days (shorter than ~36.5 days) the exponent denominator is
the 0.1-year floor, i.e. the CAGR equals ((last/first) ** 10 - 1) * 100. -/
theorem calc_summary_cagr_spec (t : String) (col : List (ℤ × Option ℝ))
    (h : 2 ≤ (dropna col).length) :
    calc_summary [(t, col)] = some [summaryRow t (dropna col)] ∧
    (summaryRow t (dropna col)).cagrPct =
      ((lastPrice (dropna col) / firstPrice (dropna col)) ^
        ((1 : ℝ) / max ((daysOf (dropna col) : ℝ) / 365.25) 0.1) - 1) * 100 ∧
    (daysOf (dropna col) ≤ 36 →
      (summaryRow t (dropna col)).cagrPct =
        ((lastPrice (dropna col) / firstPrice (dropna col)) ^ (10 : ℝ) - 1) * 100) := by
  refine ⟨?_, rfl, ?_⟩
  · simp [calc_summary, List.filterMap, h]
  · intro hd
    have hcast : (daysOf (dropna col) : ℝ) ≤ 36 := by exact_mod_cast hd
    have hle : (daysOf (dropna col) : ℝ) / 365.25 ≤ 0.1 := by
      rw [div_le_iff₀ (by norm_num : (0 : ℝ) < 365.25)]
      linarith
    have hyrs : yrsOf (dropna col) = 0.1 := by
      unfold yrsOf
      exact max_eq_right hle
    show cagrOf (dropna col) = _
    unfold cagrOf
    rw [hyrs]
    norm_num

/-- Concrete check for claim C1: a 2-point series spanning 10 days, prices 1
and 1.01; the hypotheses of calc_summary_cagr_spec hold and the clamped CAGR
formula with exponent 10 comes out. -/
theorem calc_summary_cagr_spec_witness :
    2 ≤ (dropna [((0 : ℤ), some (1 : ℝ)), (10, some 1.01)]).length ∧
    daysOf (dropna [((0 : ℤ), some (1 : ℝ)), (10, some 1.01)]) ≤ 36 ∧
    (summaryRow "A" (dropna [((0 : ℤ), some (1 : ℝ)), (10, some 1.01)])).cagrPct =
      ((lastPrice (dropna [((0 : ℤ), some (1 : ℝ)), (10, some 1.01)]) /
        firstPrice (dropna [((0 : ℤ), some (1 : ℝ)), (10, some 1.01)])) ^ (10 : ℝ) - 1) * 100 := by
  refine ⟨by simp [dropna], by simp [dropna, daysOf], ?_⟩
  exact (calc_summary_cagr_spec "A" _ (by simp [dropna])).2.2 (by simp [dropna, daysOf])

/-- Claim C2, counterexample: engine.py calculate_cagr on a series with a
single valid point returns the numeric value 0, not a non-numeric
insufficient-data marker. -/
theorem calculate_cagr_returns_zero_counterexample :
    calculate_cagr [((0 : ℤ), (100 : ℝ))] = 0 := by
  simp [calculate_cagr, daysOf]

/-- Claim C2, amended: in dashboard.py calc_summary a column with fewer than 2
valid points contributes no row — when some other column survives, the result
simply omits the short instrument, and a column with exactly 2 valid points
gets NaN (none) volatility and Sharpe markers; but when NO column has 2 valid
points the trailing sort_values raises KeyError (modelled none) instead of any
marker, and engine.py calculate_cagr returns the numeric value 0 for any
series with fewer than 2 points (empty frame, or zero elapsed days < 30). -/
theorem insufficient_data_markers_amended :
    (∀ (t t' : String) (col col' : List (ℤ × Option ℝ)),
      2 ≤ (dropna col).length → (dropna col').length < 2 →
      calc_summary [(t, col), (t', col')] = some [summaryRow t (dropna col)]) ∧
    (∀ (t : String) (col : List (ℤ × Option ℝ)), (dropna col).length < 2 →
      calc_summary [(t, col)] = none) ∧
    (∀ (t : String) (col : List (ℤ × Option ℝ)), (dropna col).length = 2 →
      (summaryRow t (dropna col)).volPct = none ∧
      (summaryRow t (dropna col)).sharpe = none) ∧
    (∀ data : List (ℤ × ℝ), data.length < 2 → calculate_cagr data = 0) := by
  refine ⟨?_, ?_, ?_, ?_⟩
  · intro t t' col col' h2 hlt
    have hno : ¬ 2 ≤ (dropna col').length := by omega
    simp [calc_summary, List.filterMap, h2, hno]
  · intro t col hlt
    have hno : ¬ 2 ≤ (dropna col).length := by omega
    simp [calc_summary, List.filterMap, hno]
  · intro t col hlen
    have hvol : volOf (dropna col) = none := by
      unfold volOf
      have hd : (dailyRet (dropna col)).length = 1 := by
        unfold dailyRet
        simp [List.length_zip, hlen]
      rw [if_neg (by omega)]
    refine ⟨hvol, ?_⟩
    show sharpeLike (cagrOf (dropna col)) (volOf (dropna col)) = none
    rw [hvol]
    rfl
  · intro data hlen
    match data with
    | [] => rfl
    | [x] => simp [calculate_cagr, daysOf]
    | x :: y :: t =>
      exfalso
      simp only [List.length_cons] at hlen
      omega

/-- Concrete check for claim C2's amended statement: next to a valid 2-point
column a 1-point column is silently omitted from the summary; a table whose
only column has 1 valid point raises (none); a 2-point column gives the NaN
volatility marker; and the engine CAGR of a 1-point series is the number 0. -/
theorem insufficient_data_markers_amended_witness :
    calc_summary [("A", [((0 : ℤ), some (1 : ℝ)), (10, some 2)]),
        ("B", [((0 : ℤ), some (5 : ℝ))])] =
      some [summaryRow "A" (dropna [((0 : ℤ), some (1 : ℝ)), (10, some 2)])] ∧
    calc_summary [("A", [((0 : ℤ), some (5 : ℝ))])] = none ∧
    (summaryRow "B" (dropna [((0 : ℤ), some (1 : ℝ)), (400, some 2)])).volPct = none ∧
    calculate_cagr [((3 : ℤ), (7 : ℝ))] = 0 := by
  refine ⟨?_, ?_, ?_, ?_⟩
  · exact insufficient_data_markers_amended.1 "A" "B" _ _ (by simp [dropna]) (by simp [dropna])
  · exact insufficient_data_markers_amended.2.1 "A" _ (by simp [dropna])
  · exact (insufficient_data_markers_amended.2.2.1 "B" _ (by simp [dropna])).1
  · exact insufficient_data_markers_amended.2.2.2 _ (by simp)

/-- Claim C7: the Sharpe-like ratio equals cagr / vol when vol is a positive
number, and is the NaN marker whenever vol is not a positive number (vol NaN,
or vol ≤ 0); the division branch is only reached with a positive vol. -/
theorem sharpe_like_safe_division (c : ℝ) (ov : Option ℝ) :
    ((∃ v, ov = some v ∧ 0 < v ∧ sharpeLike c ov = some (c / v)) ∨ sharpeLike c ov = none) ∧
    (∀ v, ov = some v → v ≤ 0 → sharpeLike c ov = none) ∧
    (ov = none → sharpeLike c ov = none) := by
  refine ⟨?_, ?_, ?_⟩
  · match ov with
    | none => exact Or.inr rfl
    | some v =>
      rcases lt_or_le 0 v with hv | hv
      · exact Or.inl ⟨v, rfl, hv, by simp [sharpeLike, hv]⟩
      · right
        simp [sharpeLike, not_lt.mpr hv]
  · intro v hv hle
    subst hv
    simp [sharpeLike, not_lt.mpr hle]
  · intro hv
    subst hv
    rfl

/-- Concrete check for claim C7: with vol = 2 the ratio 4 / 2 is produced,
with vol = -1 or vol = NaN the marker comes out. -/
theorem sharpe_like_safe_division_witness :
    sharpeLike 4 (some 2) = some ((4 : ℝ) / 2) ∧
    sharpeLike 4 (some (-1)) = none ∧
    sharpeLike (4 : ℝ) none = none := by
  refine ⟨?_, ?_, ?_⟩
  · rcases (sharpe_like_safe_division 4 (some 2)).1 with ⟨v, hv, _, hs⟩ | hbad
    · cases Option.some_inj.mp hv
      exact hs
    · simp [sharpeLike] at hbad
  · exact (sharpe_like_safe_division 4 (some (-1))).2.1 (-1) rfl (by norm_num)
  · exact (sharpe_like_safe_division (4 : ℝ) none).2.2 rfl

/- ### dashboard.py, parse_quarterly_index (lines 166-186)

For each raw label x the source runs:
    s = str(x).strip()
    try:
        s_norm = s.replace("-", "").replace(" ", "")
        if s_norm[:1] == "Q":
            q = int(s_norm[1]); y = int(s_norm[2:])
        else:
            y = int(s_norm[:4]); q = int(s_norm[5])
        month = (q - 1) * 3 + 1
        parsed.append(pd.Timestamp(year=y, month=month, day=1))
    except Exception:
        parsed.append(pd.NaT)
NaT is modelled as none.  Python int() is modelled for an optional ASCII sign
followed by ASCII digits, with surrounding whitespace tolerated; Python
additionally accepts underscore digit separators and non-ASCII decimal digits,
which only enlarges the set of parsable labels and never changes the shape of
a successful parse (a single indexed character still parses only as one digit). -/

/-- A pandas Timestamp at day resolution: year, month, day. -/
structure Date where
  year : ℤ
  month : ℤ
  day : ℤ
deriving DecidableEq, Repr

/-- Python str.strip(): remove leading and trailing whitespace. -/
def pyStrip (cs : List Char) : List Char :=
  ((cs.dropWhile Char.isWhitespace).reverse.dropWhile Char.isWhitespace).reverse

/-- str.replace(c, "") for a one-character pattern: delete every occurrence. -/
def removeAll (c : Char) (cs : List Char) : List Char :=
  cs.filter fun x => !(x == c)

/-- Value of an ASCII decimal digit. -/
def digitVal (c : Char) : Option ℕ :=
  if 48 ≤ c.toNat ∧ c.toNat ≤ 57 then some (c.toNat - 48) else none

/-- A nonempty all-digit run read as a number; anything else fails. -/
def pyDigits (cs : List Char) : Option ℕ :=
  if cs.isEmpty then none
  else
    cs.foldl
      (fun acc c =>
        match acc, digitVal c with
        | some n, some d => some (n * 10 + d)
        | _, _ => none)
      (some 0)

/-- Python int() applied to a character run: optional surrounding whitespace,
optional sign, then a nonempty digit run; everything else raises (none). -/
def pyInt (cs : List Char) : Option ℤ :=
  match pyStrip cs with
  | [] => none
  | a :: rest =>
    if a = '+' then (pyDigits rest).map fun n => (n : ℤ)
    else if a = '-' then (pyDigits rest).map fun n => -(n : ℤ)
    else (pyDigits (a :: rest)).map fun n => (n : ℤ)

/-- Gregorian leap-year rule, as used by pandas Timestamp validation. -/
def isLeap (y : ℤ) : Bool :=
  (y % 4 == 0 && y % 100 != 0) || (y % 400 == 0)

/-- Length of a month, for Timestamp day validation. -/
def daysInMonth (y m : ℤ) : ℤ :=
  if m = 2 then (if isLeap y then 29 else 28)
  else if m = 4 ∨ m = 6 ∨ m = 9 ∨ m = 11 then 30 else 31

/-- pd.Timestamp(year=y, month=m, day=d): succeeds only for a real calendar
date inside the nanosecond-resolution Timestamp range (1677-09-21 to
2262-04-11, so a day-1 date needs 1677-10 through 2262-04); every other
combination raises, which the caller turns into NaT (none). -/
def mkTimestamp (y m d : ℤ) : Option Date :=
  if 1 ≤ m ∧ m ≤ 12 ∧ 1 ≤ d ∧ d ≤ daysInMonth y m ∧
      (1678 ≤ y ∨ (y = 1677 ∧ 10 ≤ m)) ∧ (y ≤ 2261 ∨ (y = 2262 ∧ m ≤ 4))
  then some ⟨y, m, d⟩ else none

/-- s.strip().replace("-", "").replace(" ", "") on the characters of the raw
label. -/
def normLabel (s : String) : List Char :=
  removeAll ' ' (removeAll '-' (pyStrip s.toList))

/-- The year/quarter extraction of parse_quarterly_index: the quarter digit
leads when the normalized label starts with "Q", otherwise the year is the
first four characters and the quarter the character at index 5; an index past
the end (IndexError) or an unparsable int fails. -/
def quarterYearOf (cs : List Char) : Option (ℤ × ℤ) :=
  if cs.take 1 = ['Q'] then
    match cs.get? 1 with
    | some c =>
      match pyInt [c], pyInt (cs.drop 2) with
      | some q, some y => some (q, y)
      | _, _ => none
    | none => none
  else
    match pyInt (cs.take 4), cs.get? 5 with
    | some y, some c =>
      match pyInt [c] with
      | some q => some (q, y)
      | none => none
    | _, _ => none

/-- The per-label body of parse_quarterly_index: strip, drop "-" and " ",
split year and quarter, build the Timestamp at month (q-1)*3+1, day 1; any
failure along the way gives NaT (none). -/
def parse_quarterly_label (s : String) : Option Date :=
  match quarterYearOf (normLabel s) with
  | some (q, y) => mkTimestamp y ((q - 1) * 3 + 1) 1
  | none => none

/-- dashboard.py parse_quarterly_index: map the per-label parser over the raw
index; bad rows become NaT instead of crashing. -/
def parse_quarterly_index (raw : List String) : List (Option Date) :=
  raw.map parse_quarterly_label

/-- Stripping a one-character run keeps it when it is not whitespace. -/
theorem pyStrip_single (c : Char) (hw : c.isWhitespace = false) :
    pyStrip [c] = [c] := by
  simp [pyStrip, List.dropWhile, hw]

/-- A single character parses as an int only to one decimal digit. -/
theorem pyInt_single_digit (c : Char) (q : ℤ) (h : pyInt [c] = some q) :
    0 ≤ q ∧ q ≤ 9 := by
  by_cases hw : c.isWhitespace
  · rw [pyInt] at h
    simp [pyStrip, List.dropWhile, hw] at h
  · rw [pyInt, pyStrip_single c (by simp [hw])] at h
    by_cases hp : c = '+'
    · simp [hp, pyDigits] at h
    · by_cases hm : c = '-'
      · simp [hp, hm, pyDigits] at h
      · simp only [hp, hm, if_false] at h
        rcases hd : digitVal c with _ | d
        · simp [pyDigits, hd] at h
        · simp [pyDigits, hd] at h
          have hd9 : d ≤ 9 := by
            unfold digitVal at hd
            split at hd
            · rename_i hr
              cases hd
              omega
            · cases hd
          omega

/-- Any successfully extracted quarter came from a single indexed character. -/
theorem quarterYearOf_digit (cs : List Char) (q y : ℤ)
    (h : quarterYearOf cs = some (q, y)) :
    ∃ c, pyInt [c] = some q := by
  unfold quarterYearOf at h
  split at h
  · split at h
    · split at h
      · cases h
        exact ⟨_, by assumption⟩
      · cases h
    · cases h
  · split at h
    · split at h
      · cases h
        exact ⟨_, by assumption⟩
      · cases h
    · cases h

/-- A Timestamp built at month (q-1)*3+1, day 1 from a decimal-digit quarter
is a quarter-start anchor. -/
theorem mkTimestamp_quarter_shape (y q : ℤ) (h0 : 0 ≤ q) (h9 : q ≤ 9) (d : Date)
    (h : mkTimestamp y ((q - 1) * 3 + 1) 1 = some d) :
    d.day = 1 ∧ (d.month = 1 ∨ d.month = 4 ∨ d.month = 7 ∨ d.month = 10) := by
  unfold mkTimestamp at h
  split at h
  · rename_i hcond
    cases h
    refine ⟨rfl, ?_⟩
    simp only
    omega
  · cases h

/-- Claim C3: for every input string the quarterly-label parser terminates and
returns either a quarter-start calendar anchor (month 1, 4, 7 or 10, day 1) or
the NaT marker; every parse failure (non-numeric fragment, out-of-range
quarter digit, short label, out-of-range Timestamp) yields NaT rather than an
exception. -/
theorem parse_quarterly_label_total_shape (s : String) :
    parse_quarterly_label s = none ∨
    ∃ d, parse_quarterly_label s = some d ∧ d.day = 1 ∧
      (d.month = 1 ∨ d.month = 4 ∨ d.month = 7 ∨ d.month = 10) := by
  cases hqy : quarterYearOf (normLabel s) with
  | none =>
    left
    simp [parse_quarterly_label, hqy]
  | some qy =>
    obtain ⟨q, y⟩ := qy
    obtain ⟨c, hc⟩ := quarterYearOf_digit _ _ _ hqy
    obtain ⟨h0, h9⟩ := pyInt_single_digit c q hc
    cases hmk : mkTimestamp y ((q - 1) * 3 + 1) 1 with
    | none =>
      left
      simp [parse_quarterly_label, hqy, hmk]
    | some d =>
      right
      exact ⟨d, by simp [parse_quarterly_label, hqy, hmk],
        mkTimestamp_quarter_shape y q h0 h9 d hmk⟩

/-- Modelled from the spec: the quarterly table's row labels come from
pandas f_q.index.to_period("Q").astype(str) (dashboard.py line 514), which
prints a quarter as the 4-digit year immediately followed by "Q" and the
quarter number, e.g. "2024Q1". -/
def quarterLabel (y q : ℕ) : List Char :=
  Nat.toDigits 10 y ++ 'Q' :: Nat.toDigits 10 q

set_option maxRecDepth 100000 in
/-- Round-trip over the whole Timestamp-representable year range, stated with
offsets so that every quantifier is a bounded Nat quantifier. -/
theorem quarter_label_roundtrip_bounded :
    ∀ dy < 584, ∀ dq < 4,
      parse_quarterly_label ⟨quarterLabel (1678 + dy) (1 + dq)⟩ =
        some ⟨(1678 + dy : ℕ), ((1 + dq : ℕ) - 1) * 3 + 1, 1⟩ := by
  decide

/-- Claim C4: for every year representable as a pandas Timestamp and every
quarter q in 1..4, parsing the label "YYYYQq" emitted by the quarterly table
re-yields exactly the anchor year Y, anchor month (q-1)*3+1 and day 1 that
identify that quarter. -/
theorem quarter_label_roundtrip (y q : ℕ)
    (hy1 : 1678 ≤ y) (hy2 : y ≤ 2261) (hq1 : 1 ≤ q) (hq2 : q ≤ 4) :
    parse_quarterly_label ⟨quarterLabel y q⟩ =
      some ⟨(y : ℕ), ((q : ℕ) - 1) * 3 + 1, 1⟩ := by
  have h := quarter_label_roundtrip_bounded (y - 1678) (by omega) (q - 1) (by omega)
  have hy : 1678 + (y - 1678) = y := by omega
  have hq : 1 + (q - 1) = q := by omega
  rw [hy, hq] at h
  exact h

/-- Concrete check for claim C4: the label "2024Q3" round-trips to the anchor
(2024, month 7, day 1). -/
theorem quarter_label_roundtrip_witness :
    1678 ≤ 2024 ∧ 2024 ≤ 2261 ∧ 1 ≤ 3 ∧ 3 ≤ 4 ∧
      parse_quarterly_label ⟨quarterLabel 2024 3⟩ =
        some ⟨(2024 : ℕ), ((3 : ℕ) - 1) * 3 + 1, 1⟩ :=
  ⟨by decide, by decide, by decide, by decide,
    quarter_label_roundtrip 2024 3 (by decide) (by decide) (by decide) (by decide)⟩

/- ### dashboard.py, compute_corr (lines 128-131)

def compute_corr(_df):
    return _df.pct_change().dropna().corr()

The price table is modelled as a list of equal-length, fully non-null columns
(the claim's "overlapping non-null dates" restriction); on such a table
pct_change().dropna() only removes the first all-NaN row, which the per-column
zip with the tail performs directly.  .corr() computes the Pearson coefficient
for every column pair; pandas produces NaN (none) whenever either column's
centred returns have zero sum of squares, including on the diagonal. -/

/-- pandas Series.pct_change (followed by dropping the leading NaN):
consecutive-value ratios minus 1. -/
def pct_change (s : List ℚ) : List ℚ :=
  (s.zip s.tail).map fun q => q.2 / q.1 - 1

/-- Arithmetic mean (rational). -/
def meanQ (l : List ℚ) : ℚ :=
  l.sum / l.length

/-- Centre a list on its mean. -/
def demean (l : List ℚ) : List ℚ :=
  l.map fun x => x - meanQ l

/-- Sum of elementwise products (the covariance/variance accumulations of
pandas nancorr, up to the common 1/(n-1) factor which cancels in the
correlation quotient). -/
def dotp (x y : List ℚ) : ℚ :=
  ((x.zip y).map fun q => q.1 * q.2).sum

noncomputable section

/-- The Pearson coefficient of one column pair as pandas nancorr computes it:
covariance over the square root of the product of variances, NaN (none) when
that divisor is zero. -/
def pearson (x y : List ℚ) : Option ℝ :=
  if dotp (demean x) (demean x) * dotp (demean y) (demean y) = 0 then none
  else some ((dotp (demean x) (demean y) : ℝ) /
    Real.sqrt ((dotp (demean x) (demean x) : ℝ) * (dotp (demean y) (demean y) : ℝ)))

/-- dashboard.py compute_corr, entry (i, j) of the correlation matrix of the
daily percentage returns of columns i and j. -/
def compute_corr (cols : List (List ℚ)) (i j : ℕ) : Option ℝ :=
  pearson (pct_change (cols.getD i [])) (pct_change (cols.getD j []))

end

theorem dotp_nil_right (x : List ℚ) : dotp x [] = 0 := by
  cases x <;> simp [dotp]

theorem dotp_cons (a b : ℚ) (x y : List ℚ) :
    dotp (a :: x) (b :: y) = a * b + dotp x y := by
  simp [dotp]

theorem dotp_comm (x y : List ℚ) : dotp x y = dotp y x := by
  induction x generalizing y with
  | nil => simp [dotp, dotp_nil_right]
  | cons a x ih =>
    cases y with
    | nil => simp [dotp, dotp_nil_right]
    | cons b y => rw [dotp_cons, dotp_cons, mul_comm, ih]

theorem dotp_self_nonneg (l : List ℚ) : 0 ≤ dotp l l := by
  induction l with
  | nil => simp [dotp]
  | cons a l ih =>
    rw [dotp_cons]
    exact add_nonneg (mul_self_nonneg a) ih

theorem pearson_comm (x y : List ℚ) : pearson x y = pearson y x := by
  unfold pearson
  rw [dotp_comm (demean y) (demean x),
    mul_comm (dotp (demean y) (demean y)) (dotp (demean x) (demean x)),
    mul_comm ((dotp (demean y) (demean y) : ℚ) : ℝ) ((dotp (demean x) (demean x) : ℚ) : ℝ)]

theorem pearson_self (x : List ℚ) (h : dotp (demean x) (demean x) ≠ 0) :
    pearson x x = some 1 := by
  unfold pearson
  rw [if_neg (by simpa [mul_self_eq_zero] using h)]
  have hpos : (0 : ℚ) < dotp (demean x) (demean x) :=
    lt_of_le_of_ne (dotp_self_nonneg _) (Ne.symm h)
  have hr : (0 : ℝ) < ((dotp (demean x) (demean x) : ℚ) : ℝ) := by exact_mod_cast hpos
  rw [Real.sqrt_mul_self hr.le, div_self (ne_of_gt hr)]

/-- Claim C5, counterexample: on two instruments with three overlapping
non-null dates, one of them at a constant price, the diagonal entry of the
correlation matrix for the constant instrument is NaN (none), not 1.0 —
pandas corr returns NaN for a zero-variance column, even on the diagonal. -/
theorem compute_corr_diag_counterexample :
    compute_corr [[1, 1, 1], [1, 2, 3]] 0 0 = none ∧
    compute_corr [[1, 1, 1], [1, 2, 3]] 0 0 ≠ some 1 := by
  have h : compute_corr [[1, 1, 1], [1, 2, 3]] 0 0 = none := by
    unfold compute_corr pearson
    rw [if_pos (by norm_num [pct_change, demean, meanQ, dotp])]
  exact ⟨h, by simp [h]⟩

/-- Claim C5, amended: the correlation matrix is symmetric for every column
set and index pair, and a diagonal entry equals exactly 1.0 whenever that
column's centred daily returns have nonzero sum of squares (nonzero variance);
a zero-variance column instead yields the NaN marker on its diagonal. -/
theorem compute_corr_symm_diag_amended :
    (∀ (cols : List (List ℚ)) (i j : ℕ), compute_corr cols i j = compute_corr cols j i) ∧
    (∀ (cols : List (List ℚ)) (i : ℕ),
      dotp (demean (pct_change (cols.getD i [])))
        (demean (pct_change (cols.getD i []))) ≠ 0 →
      compute_corr cols i i = some 1) := by
  constructor
  · intro cols i j
    exact pearson_comm _ _
  · intro cols i h
    exact pearson_self _ h

/-- Concrete check for claim C5's amended statement: a 2-column table is
symmetric at (0,1)/(1,0), and a column with non-constant returns has diagonal
entry exactly 1.0. -/
theorem compute_corr_symm_diag_amended_witness :
    compute_corr [[1, 2], [2, 1]] 0 1 = compute_corr [[1, 2], [2, 1]] 1 0 ∧
    dotp (demean (pct_change ([[(1 : ℚ), 2, 3], [3, 2, 1]].getD 0 [])))
      (demean (pct_change ([[(1 : ℚ), 2, 3], [3, 2, 1]].getD 0 []))) ≠ 0 ∧
    compute_corr [[1, 2, 3], [3, 2, 1]] 0 0 = some 1 :=
  ⟨compute_corr_symm_diag_amended.1 [[1, 2], [2, 1]] 0 1,
    by norm_num [pct_change, demean, meanQ, dotp],
    compute_corr_symm_diag_amended.2 [[1, 2, 3], [3, 2, 1]] 0
      (by norm_num [pct_change, demean, meanQ, dotp])⟩

/- ### dashboard.py, the correlation guards (Tab 2 lines 459-474, Tab 6 lines
796-811)

Both tabs run `if len(selected_stocks) > 1:` around compute_corr and show an
explicit "select 2 or more stocks" empty-state message otherwise.  Tab 6
additionally slices the target column of the same matrix for display, which
does not affect the guard. -/

/-- What a correlation section renders: the computed matrix, or the explicit
not-applicable empty state. -/
inductive CorrView where
  | matrix (entries : ℕ → ℕ → Option ℝ)
  | notApplicable

/-- Tab 2 correlation section: full heatmap behind the ≥2-stock guard. -/
noncomputable def tab2_corr_view (selected : List String) (cols : List (List ℚ)) : CorrView :=
  if 1 < selected.length then CorrView.matrix (compute_corr cols) else CorrView.notApplicable

/-- Tab 6 correlation section: per-stock correlation bar behind the same
≥2-stock guard, computed from the same matrix. -/
noncomputable def tab6_corr_view (selected : List String) (cols : List (List ℚ)) : CorrView :=
  if 1 < selected.length then CorrView.matrix (compute_corr cols) else CorrView.notApplicable

/-- Claim C6: with exactly 1 selected instrument both correlation sections
render the not-applicable empty state and no matrix; the correlation matrix is
computed only when 2 or more instruments are selected. -/
theorem corr_guard_single_stock (selected : List String) (cols : List (List ℚ)) :
    (selected.length = 1 →
      tab2_corr_view selected cols = CorrView.notApplicable ∧
      tab6_corr_view selected cols = CorrView.notApplicable) ∧
    (2 ≤ selected.length →
      tab2_corr_view selected cols = CorrView.matrix (compute_corr cols) ∧
      tab6_corr_view selected cols = CorrView.matrix (compute_corr cols)) := by
  constructor
  · intro h1
    have hno : ¬ 1 < selected.length := by omega
    exact ⟨by simp [tab2_corr_view, hno], by simp [tab6_corr_view, hno]⟩
  · intro h2
    have hyes : 1 < selected.length := by omega
    exact ⟨by simp [tab2_corr_view, hyes], by simp [tab6_corr_view, hyes]⟩

/-- Concrete check for claim C6: one selected stock yields the empty state,
two yield the matrix. -/
theorem corr_guard_single_stock_witness :
    tab2_corr_view ["A"] [] = CorrView.notApplicable ∧
    tab6_corr_view ["A", "B"] [] = CorrView.matrix (compute_corr []) :=
  ⟨((corr_guard_single_stock ["A"] []).1 (by simp)).1,
    ((corr_guard_single_stock ["A", "B"] []).2 (by simp)).2⟩

/- ### dashboard.py, deep-dive drawdowns (lines 711-712, 721-722)

dd_period  = (s_data / s_data.cummax() - 1) * 100
dd_alltime = (full_series / full_series.cummax() - 1) * 100
with s_data the year-filtered column and full_series the complete unfiltered
column, so s_data is a subsequence of full_series.  The metrics compare
dd_period.min() with dd_alltime.min().  Prices are modelled as rationals
(exact float arithmetic); the data model makes them positive. -/

/-- pandas Series.cummax: running maximum. -/
def cummax : List ℚ → List ℚ
  | [] => []
  | p :: r => p :: (cummax r).map (max p)

/-- (series / series.cummax() - 1) * 100, the per-date drawdown. -/
def drawdown (s : List ℚ) : List ℚ :=
  (s.zip (cummax s)).map fun q => (q.1 / q.2 - 1) * 100

/-- Drawdown with an explicit running maximum accumulated from the left
(none = no price seen yet); recursion-friendly form of drawdown. -/
def ddAux : Option ℚ → List ℚ → List ℚ
  | _, [] => []
  | om, p :: r =>
    match om with
    | none => ((p / p - 1) * 100) :: ddAux (some p) r
    | some m => ((p / max m p - 1) * 100) :: ddAux (some (max m p)) r

theorem ddAux_some_eq (s : List ℚ) : ∀ m : ℚ,
    ddAux (some m) s = ((s.zip ((cummax s).map (max m))).map fun q => (q.1 / q.2 - 1) * 100) := by
  induction s with
  | nil => intro m; rfl
  | cons p r ih =>
    intro m
    have hmap : ((cummax r).map (max p)).map (max m) = (cummax r).map (max (max m p)) := by
      rw [List.map_map]
      apply List.map_congr_left
      intro a _
      show max m (max p a) = max (max m p) a
      exact (max_assoc m p a).symm
    simp only [ddAux, cummax, List.map_cons, List.zip_cons_cons, List.map_cons, hmap, ih]

theorem drawdown_eq_ddAux (s : List ℚ) : drawdown s = ddAux none s := by
  cases s with
  | nil => rfl
  | cons p r =>
    simp only [drawdown, cummax, List.zip_cons_cons, List.map_cons, ddAux, ddAux_some_eq]

/-- The maximum-so-far relation maintained while walking a sublist against the
full list: the sublist's running maximum never exceeds the full list's, and
both are positive once set. -/
def mrel : Option ℚ → Option ℚ → Prop
  | none, _ => True
  | some ms, some mf => ms ≤ mf ∧ 0 < ms
  | some _, none => False

theorem dd_head_le (a m₁ m₂ : ℚ) (ha : 0 < a) (h1 : 0 < m₁) (hle : m₁ ≤ m₂) :
    (a / m₂ - 1) * 100 ≤ (a / m₁ - 1) * 100 := by
  have hdiv : a / m₂ ≤ a / m₁ := div_le_div_of_nonneg_left ha.le h1 hle
  nlinarith

/-- One matched element: the heads compare by dd_head_le and the tails by the
induction hypothesis. -/
theorem ddAux_step (a : ℚ) (l₁ l₂ : List ℚ) (m₁ m₂ : ℚ)
    (ha : 0 < a) (h1 : 0 < m₁) (hle : m₁ ≤ m₂)
    (ih : ∀ y ∈ ddAux (some m₁) l₁, ∃ z ∈ ddAux (some m₂) l₂, z ≤ y) :
    ∀ y ∈ ((a / m₁ - 1) * 100) :: ddAux (some m₁) l₁,
      ∃ z ∈ ((a / m₂ - 1) * 100) :: ddAux (some m₂) l₂, z ≤ y := by
  intro y hy
  rcases List.mem_cons.mp hy with hy | hy
  · exact ⟨_, List.mem_cons_self _ _, by rw [hy]; exact dd_head_le a m₁ m₂ ha h1 hle⟩
  · obtain ⟨z, hz, hzy⟩ := ih y hy
    exact ⟨z, List.mem_cons_of_mem _ hz, hzy⟩

theorem ddAux_dominated {s full : List ℚ} (hsub : s.Sublist full)
    (hpos : ∀ x ∈ full, 0 < x) :
    ∀ oms omf, mrel oms omf → ∀ y ∈ ddAux oms s, ∃ z ∈ ddAux omf full, z ≤ y := by
  induction hsub with
  | slnil =>
    intro oms omf _ y hy
    simp [ddAux] at hy
  | @cons l₁ l₂ a h ih =>
    intro oms omf hrel y hy
    have hpos' : ∀ x ∈ l₂, 0 < x := fun x hx => hpos x (List.mem_cons_of_mem a hx)
    match oms, omf, hrel with
    | none, none, _ =>
      obtain ⟨z, hz, hzy⟩ := ih hpos' none (some a) trivial y hy
      exact ⟨z, List.mem_cons_of_mem _ hz, hzy⟩
    | none, some mf, _ =>
      obtain ⟨z, hz, hzy⟩ := ih hpos' none (some (max mf a)) trivial y hy
      exact ⟨z, List.mem_cons_of_mem _ hz, hzy⟩
    | some ms, some mf, hrel =>
      obtain ⟨z, hz, hzy⟩ :=
        ih hpos' (some ms) (some (max mf a)) ⟨le_trans hrel.1 (le_max_left mf a), hrel.2⟩ y hy
      exact ⟨z, List.mem_cons_of_mem _ hz, hzy⟩
  | @cons₂ l₁ l₂ a h ih =>
    intro oms omf hrel y hy
    have hpos' : ∀ x ∈ l₂, 0 < x := fun x hx => hpos x (List.mem_cons_of_mem a hx)
    have ha : 0 < a := hpos a (List.mem_cons_self a l₂)
    match oms, omf, hrel with
    | none, none, _ =>
      exact ddAux_step a l₁ l₂ a a ha ha le_rfl
        (ih hpos' (some a) (some a) ⟨le_rfl, ha⟩) y hy
    | none, some mf, _ =>
      exact ddAux_step a l₁ l₂ a (max mf a) ha ha (le_max_right mf a)
        (ih hpos' (some a) (some (max mf a)) ⟨le_max_right mf a, ha⟩) y hy
    | some ms, some mf, hrel =>
      exact ddAux_step a l₁ l₂ (max ms a) (max mf a) ha (lt_max_of_lt_right ha)
        (max_le_max hrel.1 le_rfl)
        (ih hpos' (some (max ms a)) (some (max mf a))
          ⟨max_le_max hrel.1 le_rfl, lt_max_of_lt_right ha⟩) y hy

/-- Claim C8: for a filtered window that is a subsequence of the full history
of positive prices, the minimum of the all-time drawdown series (running max
over the full history) is at most the minimum of the period drawdown series
(running max reset at the window start). -/
theorem alltime_drawdown_min_le_period (s full : List ℚ) (hsub : s.Sublist full)
    (hpos : ∀ x ∈ full, 0 < x) :
    (drawdown full).minimum ≤ (drawdown s).minimum := by
  cases hm : (drawdown s).minimum with
  | top => exact le_top
  | coe b =>
    obtain ⟨hmem, -⟩ := List.minimum_eq_coe_iff.mp hm
    rw [drawdown_eq_ddAux] at hmem
    obtain ⟨z, hz, hzb⟩ := ddAux_dominated hsub hpos none none trivial b hmem
    calc (drawdown full).minimum ≤ (z : WithTop ℚ) := by
          rw [drawdown_eq_ddAux]
          exact List.minimum_le_of_mem' hz
      _ ≤ (b : WithTop ℚ) := by exact_mod_cast hzb

/-- Concrete check for claim C8: window [1, 4] inside full history [2, 1, 4]
with positive prices; the all-time drawdown minimum is at most the period
drawdown minimum. -/
theorem alltime_drawdown_min_le_period_witness :
    ([1, 4] : List ℚ).Sublist [2, 1, 4] ∧ (∀ x ∈ ([2, 1, 4] : List ℚ), 0 < x) ∧
    (drawdown [2, 1, 4]).minimum ≤ (drawdown [1, 4]).minimum := by
  have hsub : ([1, 4] : List ℚ).Sublist [2, 1, 4] :=
    List.Sublist.cons 2 (List.Sublist.refl [1, 4])
  exact ⟨hsub, by decide, alltime_drawdown_min_le_period [1, 4] [2, 1, 4] hsub (by decide)⟩

/- ### dashboard.py, deep-dive moving averages and crossover (lines 677-695)

s_data      = filtered_prices[target_stock].dropna()
full_series = prices_df[target_stock].dropna()
ma50  = full_series.rolling(50).mean().reindex(s_data.index)
ma200 = full_series.rolling(200).mean().reindex(s_data.index)
cross_series = (ma50 > ma200).dropna()

rolling(w).mean() leaves NaN for the first w-1 positions (min_periods defaults
to the window).  reindex looks each display date up in the full-history MA
series.  The pandas comparison ma50 > ma200 evaluates to False wherever either
side is NaN (NaN comparisons are False elementwise), producing a plain boolean
series, so the subsequent .dropna() removes nothing. -/

/-- pandas Series.rolling(w).mean(): NaN until w values are available, then
the mean of the trailing w values. -/
def rolling_mean (w : ℕ) (s : List ℚ) : List (Option ℚ) :=
  (List.range s.length).map fun i =>
    if w ≤ i + 1 then some (((s.drop (i + 1 - w)).take w).sum / w) else none

/-- Look a date up in a date-indexed series (pandas reindex cell fill; the
price index has unique dates). -/
def lookupDate {α : Type} (d : ℤ) (l : List (ℤ × α)) : Option α :=
  (l.find? fun q => q.1 == d).map Prod.snd

/-- The full-history moving-average series, carrying the full history's
dates. -/
def ma_series (w : ℕ) (full : List (ℤ × ℚ)) : List (ℤ × Option ℚ) :=
  (full.map Prod.fst).zip (rolling_mean w (full.map Prod.snd))

/-- pandas Series.reindex(idx): one cell per requested date, NaN when the
date is absent from the series. -/
def reindexSeries (ma : List (ℤ × Option ℚ)) (idx : List ℤ) : List (ℤ × Option ℚ) :=
  idx.map fun d => (d, (lookupDate d ma).getD none)

/-- ma50 / ma200 of the deep dive: the rolling mean over the complete
unfiltered history, re-indexed onto the dates of the year-filtered column
(sel is the year-membership test of the filter). -/
def deep_dive_ma (w : ℕ) (full : List (ℤ × ℚ)) (sel : ℤ → Bool) : List (ℤ × Option ℚ) :=
  reindexSeries (ma_series w full) ((full.filter fun q => sel q.1).map Prod.fst)

/-- The pandas elementwise comparison fast > slow on two aligned float
series: False whenever either cell is NaN. -/
def seriesGt (fast slow : List (Option ℚ)) : List Bool :=
  (fast.zip slow).map fun q =>
    match q.1, q.2 with
    | some a, some b => decide (b < a)
    | _, _ => false

/-- cross_series = (ma50 > ma200).dropna(): the comparison already produced a
boolean (NaN-free) series, so dropna removes nothing. -/
def cross_series (fast slow : List (Option ℚ)) : List Bool :=
  seriesGt fast slow

/-- Claim C9, evaluation at the failing input: at a date where the fast MA
exists but the slow MA is NaN (e.g. between 50 and 199 days of history), the
crossover series holds the boolean False — a bearish reading — instead of the
null the claim requires. -/
theorem cross_series_false_on_null_ma :
    cross_series [some (1 : ℚ)] [none] = [false] ∧
    cross_series [none, some (2 : ℚ)] [some (1 : ℚ), none] = [false, false] := by
  constructor <;> rfl

/-- Element k of a rolling mean: the mean of the trailing w values once
available. -/
theorem rolling_mean_get (w : ℕ) (s : List ℚ) (k : ℕ) (hk : k < s.length) :
    (rolling_mean w s).get ⟨k, by simpa [rolling_mean] using hk⟩ =
      if w ≤ k + 1 then some (((s.drop (k + 1 - w)).take w).sum / w) else none := by
  simp [rolling_mean]

/-- find? by date returns exactly the k-th entry when the dates are pairwise
distinct. -/
theorem find?_date_get {α : Type} (l : List (ℤ × α)) (k : ℕ) (hk : k < l.length)
    (hnd : (l.map Prod.fst).Pairwise (· ≠ ·)) :
    (l.find? fun q => q.1 == (l.get ⟨k, hk⟩).1) = some (l.get ⟨k, hk⟩) := by
  induction l generalizing k with
  | nil => simp at hk
  | cons x t ih =>
    cases k with
    | zero => simp [List.find?]
    | succ k =>
      have hk' : k < t.length := by simpa using hk
      have hget : ((x :: t).get ⟨k + 1, hk⟩) = t.get ⟨k, hk'⟩ := rfl
      have hne : x.1 ≠ (t.get ⟨k, hk'⟩).1 := by
        have hmem : (t.get ⟨k, hk'⟩).1 ∈ t.map Prod.fst :=
          List.mem_map_of_mem Prod.fst (t.get_mem k hk')
        exact (List.pairwise_cons.mp hnd).1 _ hmem
      rw [hget]
      rw [List.find?]
      have hbeq : (x.1 == (t.get ⟨k, hk'⟩).1) = false := by
        simpa using hne
      rw [hbeq]
      simp only [cond_false]
      exact ih k hk' (List.pairwise_cons.mp hnd).2

theorem ma_series_length (w : ℕ) (full : List (ℤ × ℚ)) :
    (ma_series w full).length = full.length := by
  simp [ma_series, rolling_mean]

/-- Entry k of ma_series pairs the k-th date with the k-th rolling mean. -/
theorem ma_series_get (w : ℕ) (full : List (ℤ × ℚ)) (k : ℕ) (hk : k < full.length)
    (hk' : k < (ma_series w full).length) :
    (ma_series w full).get ⟨k, hk'⟩ =
      ((full.get ⟨k, hk⟩).1,
        if w ≤ k + 1 then
          some ((((full.map Prod.snd).drop (k + 1 - w)).take w).sum / w) else none) := by
  show ((full.map Prod.fst).zip (rolling_mean w (full.map Prod.snd))).get ⟨k, hk'⟩ = _
  rw [List.get_zip]
  congr 1
  · simp
  · have := rolling_mean_get w (full.map Prod.snd) k (by simpa using hk)
    simpa using this

/-- Claim C10: the deep-dive moving average shown at any displayed (filtered)
date is the rolling mean taken over the complete unfiltered history ending at
that date — so when at least w prices exist up to that date, the displayed
value averages prices from before the filtered window as well.  Here date k of
the full history passes the filter and its displayed cell equals the trailing
w-price mean over the full price list. -/
theorem deep_dive_ma_full_history (w : ℕ) (full : List (ℤ × ℚ)) (sel : ℤ → Bool)
    (hmono : (full.map Prod.fst).Pairwise (· < ·))
    (k : ℕ) (hk : k < full.length) (hsel : sel (full.get ⟨k, hk⟩).1 = true) :
    ((full.get ⟨k, hk⟩).1,
      if w ≤ k + 1 then
        some ((((full.map Prod.snd).drop (k + 1 - w)).take w).sum / w) else none) ∈
      deep_dive_ma w full sel := by
  have hnd : ((ma_series w full).map Prod.fst).Pairwise (· ≠ ·) := by
    have heq : (ma_series w full).map Prod.fst = full.map Prod.fst := by
      apply List.map_fst_zip
      simp [rolling_mean]
    rw [heq]
    exact hmono.imp ne_of_lt
  have hk' : k < (ma_series w full).length := by rw [ma_series_length]; exact hk
  have hdate : ((ma_series w full).get ⟨k, hk'⟩).1 = (full.get ⟨k, hk⟩).1 := by
    rw [ma_series_get w full k hk hk']
  have hfind : lookupDate (full.get ⟨k, hk⟩).1 (ma_series w full) =
      some (if w ≤ k + 1 then
        some ((((full.map Prod.snd).drop (k + 1 - w)).take w).sum / w) else none) := by
    unfold lookupDate
    rw [← hdate, find?_date_get (ma_series w full) k hk' hnd, ma_series_get w full k hk hk']
    rfl
  have hmem : (full.get ⟨k, hk⟩).1 ∈ (full.filter fun q => sel q.1).map Prod.fst := by
    refine List.mem_map_of_mem Prod.fst ?_
    rw [List.mem_filter]
    exact ⟨full.get_mem k hk, hsel⟩
  have hm2 : ((full.get ⟨k, hk⟩).1,
      (lookupDate (full.get ⟨k, hk⟩).1 (ma_series w full)).getD none) ∈
        (((full.filter fun q => sel q.1).map Prod.fst).map
          fun d => (d, (lookupDate d (ma_series w full)).getD none)) :=
    List.mem_map_of_mem _ hmem
  rw [hfind] at hm2
  unfold deep_dive_ma reindexSeries
  simpa using hm2

/-- Concrete check for claim C10: a 3-day history with only the last date
selected by the filter; the displayed 2-day moving average at that first
displayed date averages the last price with the pre-window price. -/
theorem deep_dive_ma_full_history_witness :
    (([((0 : ℤ), (1 : ℚ)), (1, 3), (2, 5)].map Prod.fst).Pairwise (· < ·)) ∧
    ((fun d => decide (2 ≤ d)) (([((0 : ℤ), (1 : ℚ)), (1, 3), (2, 5)].get
      ⟨2, by decide⟩).1) = true) ∧
    ((([((0 : ℤ), (1 : ℚ)), (1, 3), (2, 5)].get ⟨2, by decide⟩).1,
      if 2 ≤ 2 + 1 then
        some (((([((0 : ℤ), (1 : ℚ)), (1, 3), (2, 5)].map Prod.snd).drop (2 + 1 - 2)).take 2).sum / 2)
      else none) ∈
      deep_dive_ma 2 [((0 : ℤ), (1 : ℚ)), (1, 3), (2, 5)] fun d => decide (2 ≤ d)) := by
  refine ⟨by decide, by decide, ?_⟩
  exact deep_dive_ma_full_history 2 [((0 : ℤ), (1 : ℚ)), (1, 3), (2, 5)]
    (fun d => decide (2 ≤ d)) (by decide) 2 (by decide) (by decide)

end StockDash
